import Mathlib

/-!
Verification development for the moltbot_qq repository.

Two components are embedded:
* `src/media/vision.ts` — the image acquisition helper (`materializeImageForVision`,
  `downloadImageUrlAsBase64`, `parseContentLength`, `readResponseBodyWithLimit`,
  `writeTempImageFile`, `extFromContentType`, `extFromUrl`).
* `scripts/qq-send-media-repro.mjs` — the request/response correlator
  (`pending` map, `call`, the `ws.on("message")` handler) and the `main`
  argument/exit-code flow.

Modelling conventions: a JS string is a `List Char`; a byte buffer is a
`List Nat`; the file system, `fetch`, `decodeURIComponent` and URL parsing are
external capabilities supplied through an environment record; a rejected
promise / thrown exception is an `Except .error`; machine numbers produced by
the JS `Number` conversion are modelled at rational precision.
-/

namespace Moltbot

/-- JS strings are modelled as lists of characters. -/
abbrev Str := List Char

/-- Conversion from Lean string literals to the `Str` model. -/
def str (s : String) : Str := s.toList

/-- JS `String.prototype.startsWith`, on the `Str` model. -/
def startsWith : Str → Str → Bool
  | [], _ => true
  | p :: ps, s =>
    match s with
    | [] => false
    | c :: cs => p == c && startsWith ps cs

/-- Decimal rendering of a natural number (JS template interpolation of a number). -/
def natStr (n : Nat) : Str := (Nat.repr n).toList

/-- Whitespace class used by JS `trim` and `Number` conversion (ASCII part plus NBSP). -/
def jsWhitespace (c : Char) : Bool :=
  c == ' ' || c == '\t' || c == '\n' || c == '\r' ||
    c == '\x0b' || c == '\x0c' || c == '\xa0'

/-- JS `String.prototype.trim`. -/
def trimJs (s : Str) : Str :=
  ((s.dropWhile jsWhitespace).reverse.dropWhile jsWhitespace).reverse

/-- JS `String.prototype.toLowerCase`, ASCII fragment. -/
def toLowerStr (s : Str) : Str := s.map Char.toLower

/- ### Base64 codec (Node `Buffer.from(s, "base64")` / `buf.toString("base64")`) -/

/-- Value of one base64 alphabet character; Node also accepts the url-safe pair. -/
def b64Val (c : Char) : Option Nat :=
  if 'A' ≤ c ∧ c ≤ 'Z' then some (c.toNat - 65)
  else if 'a' ≤ c ∧ c ≤ 'z' then some (c.toNat - 97 + 26)
  else if '0' ≤ c ∧ c ≤ '9' then some (c.toNat - 48 + 52)
  else if c = '+' ∨ c = '-' then some 62
  else if c = '/' ∨ c = '_' then some 63
  else none

/-- Sextet stream of a base64 text; Node's decoder skips padding and foreign characters. -/
def b64Sextets (s : Str) : List Nat := s.filterMap b64Val

/-- Byte reconstruction from sextets; a trailing lone sextet is dropped, as in Node. -/
def b64DecodeVals : List Nat → List Nat
  | a :: b :: c :: d :: rest =>
      (a * 4 + b / 16) :: ((b % 16) * 16 + c / 4) :: ((c % 4) * 64 + d) :: b64DecodeVals rest
  | [a, b] => [a * 4 + b / 16]
  | [a, b, c] => [a * 4 + b / 16, (b % 16) * 16 + c / 4]
  | _ => []

/-- Node `Buffer.from(s, "base64")`. -/
def b64decode (s : Str) : List Nat := b64DecodeVals (b64Sextets s)

/-- The standard base64 alphabet. -/
def b64Alphabet : Str :=
  str "ABCDEFGHIJKLMNOPQRSTUVWXYZabcdefghijklmnopqrstuvwxyz0123456789+/"

/-- Alphabet character of a sextet value. -/
def b64EncChar (n : Nat) : Char := b64Alphabet.getD n 'A'

/-- Node `buf.toString("base64")`, with padding. -/
def b64encode : List Nat → Str
  | b1 :: b2 :: b3 :: rest =>
      b64EncChar (b1 / 4) :: b64EncChar ((b1 % 4) * 16 + b2 / 16) ::
        b64EncChar ((b2 % 16) * 4 + b3 / 64) :: b64EncChar (b3 % 64) :: b64encode rest
  | [b1, b2] =>
      [b64EncChar (b1 / 4), b64EncChar ((b1 % 4) * 16 + b2 / 16), b64EncChar ((b2 % 16) * 4), '=']
  | [b1] => [b64EncChar (b1 / 4), b64EncChar ((b1 % 4) * 16), '=', '=']
  | [] => []

/- ### JS `Number(string)` conversion, at rational precision -/

/-- Exact value of a finite JS number converted from a string: every such
value is a decimal fraction `num / 10 ^ scale`. Kept unnormalised so that all
arithmetic is plain integer arithmetic. -/
structure DecNum where
  num : Int
  scale : Nat
deriving DecidableEq

/-- Rational denotation of a decimal fraction. -/
def DecNum.toRat (d : DecNum) : ℚ := (d.num : ℚ) / (10 : ℚ) ^ d.scale

/-- Value comparison `0 ≤ d`. -/
def DecNum.nonneg (d : DecNum) : Bool := decide (0 ≤ d.num)

/-- Value comparison `m < d` for a natural bound. -/
def natLtDecNum (m : Nat) (d : DecNum) : Bool :=
  decide ((m : Int) * (10 : Int) ^ d.scale < d.num)

/-- Application of a base-ten exponent to a decimal fraction. -/
def applyExp (d : DecNum) : Int → DecNum
  | .ofNat n => ⟨d.num * (10 : Int) ^ n, d.scale⟩
  | .negSucc n => ⟨d.num, d.scale + (n + 1)⟩

/-- Result of the JS `Number` conversion: not-a-number, signed infinities, or a value. -/
inductive JSNum where
  | nan : JSNum
  | posInf : JSNum
  | negInf : JSNum
  | val : DecNum → JSNum
deriving DecidableEq

/-- Value of a list of decimal digit characters. -/
def digitsToNat (l : Str) : Nat := l.foldl (fun a c => a * 10 + (c.toNat - 48)) 0

/-- Exponent digits: require at least one digit and full consumption. -/
def jsExpDigits (r : Str) : Option Nat :=
  if r ≠ [] ∧ r.all Char.isDigit then some (digitsToNat r) else none

/-- Optional exponent tail of a decimal literal; `none` marks a syntax error. -/
def jsExpTail : Str → Option Int
  | [] => some 0
  | c :: r =>
    if c = 'e' ∨ c = 'E' then
      match r with
      | '+' :: r2 => (jsExpDigits r2).map (fun n => (n : Int))
      | '-' :: r2 => (jsExpDigits r2).map (fun n => -(n : Int))
      | r2 => (jsExpDigits r2).map (fun n => (n : Int))
    else none

/-- Unsigned decimal literal: digits, optional fraction, optional exponent. -/
def jsDecimal (r : Str) : JSNum :=
  let ds := r.takeWhile Char.isDigit
  let r1 := r.dropWhile Char.isDigit
  match r1 with
  | '.' :: r2 =>
    let fs := r2.takeWhile Char.isDigit
    let r3 := r2.dropWhile Char.isDigit
    if ds = [] ∧ fs = [] then .nan
    else
      match jsExpTail r3 with
      | some e => .val (applyExp ⟨(digitsToNat (ds ++ fs) : Int), fs.length⟩ e)
      | none => .nan
  | _ =>
    if ds = [] then .nan
    else
      match jsExpTail r1 with
      | some e => .val (applyExp ⟨(digitsToNat ds : Int), 0⟩ e)
      | none => .nan

/-- Negation of a conversion result. -/
def jsNegate : JSNum → JSNum
  | .nan => .nan
  | .posInf => .negInf
  | .negInf => .posInf
  | .val q => .val ⟨-q.num, q.scale⟩

/-- Unsigned numeric literal: `Infinity` or a decimal literal. -/
def jsUnsigned (r : Str) : JSNum :=
  if r = str "Infinity" then .posInf else jsDecimal r

/-- Signed numeric literal. -/
def jsSigned : Str → JSNum
  | '+' :: r => jsUnsigned r
  | '-' :: r => jsNegate (jsUnsigned r)
  | r => jsUnsigned r

/-- Hexadecimal digit value. -/
def hexDigitVal (c : Char) : Option Nat :=
  if c.isDigit then some (c.toNat - 48)
  else if 'a' ≤ c ∧ c ≤ 'f' then some (c.toNat - 97 + 10)
  else if 'A' ≤ c ∧ c ≤ 'F' then some (c.toNat - 65 + 10)
  else none

/-- Digit value bounded by a base. -/
def radixDigitVal (base : Nat) (c : Char) : Option Nat :=
  match hexDigitVal c with
  | some v => if v < base then some v else none
  | none => none

/-- Integer literal in a given base; `none` on empty or foreign characters. -/
def parseRadix (base : Nat) (l : Str) : Option Nat :=
  if l = [] then none
  else
    l.foldl
      (fun acc c =>
        match acc, radixDigitVal base c with
        | some a, some v => some (a * base + v)
        | _, _ => none)
      (some 0)

/-- Trimmed, non-empty numeric literal: radix forms, then signed decimal. -/
def jsNumberCore : Str → JSNum
  | '0' :: c :: rest =>
    if c = 'x' ∨ c = 'X' then
      match parseRadix 16 rest with
      | some n => .val ⟨(n : Int), 0⟩
      | none => .nan
    else if c = 'o' ∨ c = 'O' then
      match parseRadix 8 rest with
      | some n => .val ⟨(n : Int), 0⟩
      | none => .nan
    else if c = 'b' ∨ c = 'B' then
      match parseRadix 2 rest with
      | some n => .val ⟨(n : Int), 0⟩
      | none => .nan
    else jsSigned ('0' :: c :: rest)
  | t => jsSigned t

/-- JS `Number(string)`: trim; empty converts to zero. -/
def jsNumber (s : Str) : JSNum :=
  let t := trimJs s
  if t = [] then .val ⟨0, 0⟩ else jsNumberCore t

/- ### vision.ts constants and `parseContentLength` -/

/-- Maximum image size accepted by the vision helper (10 MiB). -/
def MAX_VISION_IMAGE_BYTES : Nat := 10 * 1024 * 1024

/-- Maximum number of images per message (unused by the embedded operations). -/
def MAX_VISION_IMAGE_COUNT : Nat := 3

/-- Timeout applied to each HEAD/GET request, in milliseconds. -/
def VISION_IMAGE_TIMEOUT_MS : Nat := 15000

/-- Source `parseContentLength(headers)`; the `headers.get("content-length")`
lookup result is passed directly. Falsy (absent or empty) values, conversion
failures, non-finite and negative values give `none`. -/
def parseContentLength (value : Option Str) : Option DecNum :=
  match value with
  | none => none
  | some v =>
    if v = [] then none
    else
      match jsNumber v with
      | .val q => if q.nonneg then some q else none
      | _ => none

/- ### Response bodies and `readResponseBodyWithLimit` -/

/-- A response body: either absent (`res.body` null) or a stream of chunks,
optionally ending in a read error (a mid-transfer network failure). -/
inductive BodyStream where
  | noBody : BodyStream
  | stream : List (List Nat) → Bool → BodyStream
deriving DecidableEq

/-- Outcome of the limited body read: the buffer (`none` when the limit
tripped) and whether the supplied abort controller was triggered. -/
structure ReadOut where
  buf : Option (List Nat)
  aborted : Bool
deriving DecidableEq

/-- Reader loop of `readResponseBodyWithLimit`: accumulate chunks and a byte
counter; the moment the counter exceeds the limit, abort and yield `none`. -/
def readLoop (maxBytes : Nat) (hasCtl : Bool) :
    Nat → List (List Nat) → List (List Nat) → Bool → Except Unit ReadOut
  | _, acc, [], errAtEnd =>
      if errAtEnd then .error () else .ok ⟨some acc.flatten, false⟩
  | received, acc, c :: cs, errAtEnd =>
      let received2 := received + c.length
      if maxBytes < received2 then .ok ⟨none, hasCtl⟩
      else readLoop maxBytes hasCtl received2 (acc ++ [c]) cs errAtEnd

/-- Source `readResponseBodyWithLimit(res, maxBytes, controller)`; the
response is represented by its body stream, the controller by a presence flag. -/
def readResponseBodyWithLimit (body : BodyStream) (maxBytes : Nat) (hasCtl : Bool) :
    Except Unit ReadOut :=
  match body with
  | .noBody => .ok ⟨some [], false⟩
  | .stream cs errAtEnd => readLoop maxBytes hasCtl 0 [] cs errAtEnd

/- ### Environment for the acquisition helper -/

/-- Result of `fs.stat`: regular-file flag and byte size. -/
structure FileStat where
  isFile : Bool
  size : Nat
deriving DecidableEq

/-- An HTTP response: status success flag, the two headers the helper reads,
and the body stream. -/
structure HttpResp where
  ok : Bool
  contentLength : Option Str
  contentType : Option Str
  body : BodyStream
deriving DecidableEq

/-- External capabilities of one acquisition call: `decodeURIComponent`
(`error` models a URIError), `fs.stat` (`none` models any failure, absorbed by
the source's `.catch(() => null)`), URL parsing (the pathname of `new URL`,
`none` when the constructor throws), the HEAD and GET responses (`error`
models a rejected `fetch`, including timeout aborts), and the `Date.now()`
reading used for temp-file naming. -/
structure VisionEnv where
  uriDecode : Str → Except Unit Str
  stat : Str → Option FileStat
  urlPathname : Str → Option Str
  headResult : Except Unit HttpResp
  getResult : Except Unit HttpResp
  nowMs : Nat

/- ### Extension resolution -/

/-- Source `extFromContentType(contentType)`. -/
def extFromContentType (contentType : Option Str) : Option Str :=
  match contentType with
  | none => none
  | some v =>
    if v = [] then none
    else
      let mime := toLowerStr (trimJs (v.takeWhile (fun c => c != ';')))
      if mime = str "image/jpeg" then some (str ".jpg")
      else if mime = str "image/png" then some (str ".png")
      else if mime = str "image/gif" then some (str ".gif")
      else if mime = str "image/webp" then some (str ".webp")
      else if mime = str "image/bmp" then some (str ".bmp")
      else none

/-- Last slash-separated component of a pathname. -/
def lastComponent (p : Str) : Str := (p.reverse.takeWhile (fun c => c != '/')).reverse

/-- Node `path.extname`, on the main cases: suffix from the last dot of the
basename, empty for dotfiles and dotless names. -/
def extnameOf (p : Str) : Str :=
  match lastComponent p with
  | [] => []
  | _ :: tl =>
    if tl.contains '.' then '.' :: (tl.reverse.takeWhile (fun c => c != '.')).reverse
    else []

/-- Extension whitelist of `extFromUrl`. -/
def imageExts : List Str :=
  [str ".jpg", str ".jpeg", str ".png", str ".gif", str ".webp", str ".bmp"]

/-- Source `extFromUrl(rawUrl)`, over the URL-parsing capability. -/
def extFromUrl (env : VisionEnv) (rawUrl : Str) : Option Str :=
  match env.urlPathname rawUrl with
  | none => none
  | some pn =>
    let ext := toLowerStr (extnameOf pn)
    if imageExts.contains ext then
      some (if ext = str ".jpeg" then str ".jpg" else ext)
    else none

/- ### Temp-file writing and the acquisition operation -/

/-- Temp path produced by `writeTempImageFile`: fixed directory and marker,
message id, timestamp, index, resolved extension. -/
def tempImageName (env : VisionEnv) (messageId : Str) (index : Nat) (extHint : Str) : Str :=
  let safeExt := if startsWith (str ".") extHint then extHint else str ".jpg"
  str "/tmp/qq_vision_" ++ messageId ++ str "_" ++ natStr env.nowMs ++ str "_" ++
    natStr index ++ safeExt

/-- Source `writeTempImageFile`: returns the path and the performed write
(path with the exact buffer handed in). -/
def writeTempImageFile (env : VisionEnv) (buffer : List Nat) (messageId : Str)
    (index : Nat) (extHint : Str) : Str × (Str × List Nat) :=
  (tempImageName env messageId index extHint,
    (tempImageName env messageId index extHint, buffer))

/-- Side effects carried by an escaping exception: files written before the
throw and which requests had been issued. -/
structure AcqEff where
  writes : List (Str × List Nat)
  headReq : Bool
  getReq : Bool
deriving DecidableEq

/-- Observable outcome of one acquisition: returned path (or `none`), the
temp-file writes performed, and which HTTP requests were issued. -/
structure AcqOutcome where
  result : Option Str
  writes : List (Str × List Nat)
  headReq : Bool
  getReq : Bool
deriving DecidableEq

/-- HEAD pre-check verdict: the HEAD response arrived, was successful, and
declared a content-length above the limit. -/
def headDeclaresOversize (env : VisionEnv) : Bool :=
  match env.headResult with
  | .error _ => false
  | .ok hr =>
    hr.ok &&
      match parseContentLength hr.contentLength with
      | some q => natLtDecNum MAX_VISION_IMAGE_BYTES q
      | none => false

/-- GET response declares a content-length above the limit. -/
def getDeclaresOversize (res : HttpResp) : Bool :=
  match parseContentLength res.contentLength with
  | some q => natLtDecNum MAX_VISION_IMAGE_BYTES q
  | none => false

/-- Body of the `try` block of `materializeImageForVision` (source lines
79–139): branch dispatch by reference form; an `error` result is an exception
reaching the outer `catch`. -/
def materializeAttempt (env : VisionEnv) (rawUrl messageId : Str) (index : Nat) :
    Except AcqEff AcqOutcome :=
  if startsWith (str "base64://") rawUrl then
    let encoded := rawUrl.drop (str "base64://").length
    if encoded = [] then .ok ⟨none, [], false, false⟩
    else
      let buffer := b64decode encoded
      if buffer.length = 0 ∨ MAX_VISION_IMAGE_BYTES < buffer.length then
        .ok ⟨none, [], false, false⟩
      else
        let w := writeTempImageFile env buffer messageId index (str ".jpg")
        .ok ⟨some w.1, [w.2], false, false⟩
  else if startsWith (str "file://") rawUrl then
    match env.uriDecode (rawUrl.drop (str "file://").length) with
    | .error _ => .error ⟨[], false, false⟩
    | .ok localPath =>
      if localPath = [] then .ok ⟨none, [], false, false⟩
      else
        match env.stat localPath with
        | none => .ok ⟨none, [], false, false⟩
        | some st =>
          if st.isFile = false ∨ MAX_VISION_IMAGE_BYTES < st.size then
            .ok ⟨none, [], false, false⟩
          else .ok ⟨some localPath, [], false, false⟩
  else if startsWith (str "/") rawUrl then
    match env.stat rawUrl with
    | none => .ok ⟨none, [], false, false⟩
    | some st =>
      if st.isFile = false ∨ MAX_VISION_IMAGE_BYTES < st.size then
        .ok ⟨none, [], false, false⟩
      else .ok ⟨some rawUrl, [], false, false⟩
  else if startsWith (str "http://") rawUrl || startsWith (str "https://") rawUrl then
    if headDeclaresOversize env then .ok ⟨none, [], true, false⟩
    else
      match env.getResult with
      | .error _ => .error ⟨[], true, true⟩
      | .ok res =>
        if res.ok = false then .ok ⟨none, [], true, true⟩
        else if getDeclaresOversize res then .ok ⟨none, [], true, true⟩
        else
          match readResponseBodyWithLimit res.body MAX_VISION_IMAGE_BYTES true with
          | .error _ => .error ⟨[], true, true⟩
          | .ok out =>
            match out.buf with
            | none => .ok ⟨none, [], true, true⟩
            | some b =>
              if b.length = 0 then .ok ⟨none, [], true, true⟩
              else
                let ext :=
                  match extFromContentType res.contentType with
                  | some e => e
                  | none =>
                    match extFromUrl env rawUrl with
                    | some e => e
                    | none => str ".jpg"
                let w := writeTempImageFile env b messageId index ext
                .ok ⟨some w.1, [w.2], true, true⟩
  else .ok ⟨none, [], false, false⟩

/-- Source `materializeImageForVision(rawUrl, messageId, index)`: the falsy
guard on `rawUrl`, the `try` body, and the outer `catch` that converts any
escaping exception into a `null` return (with a warning log). -/
def materializeImageForVision (env : VisionEnv) (rawUrl messageId : Str) (index : Nat) :
    AcqOutcome :=
  if rawUrl = [] then ⟨none, [], false, false⟩
  else
    match materializeAttempt env rawUrl messageId index with
    | .ok r => r
    | .error e => ⟨none, e.writes, e.headReq, e.getReq⟩

/- ### downloadImageUrlAsBase64 -/

/-- Body of the `try` block of `downloadImageUrlAsBase64` (source lines
150–166): GET, status check, declared-length check, limited body read,
re-encoding as an embedded-data string. -/
def downloadAttempt (env : VisionEnv) (_rawUrl : Str) : Except Unit (Option Str) :=
  match env.getResult with
  | .error _ => .error ()
  | .ok res =>
    if res.ok = false then .ok none
    else if getDeclaresOversize res then .ok none
    else
      match readResponseBodyWithLimit res.body MAX_VISION_IMAGE_BYTES true with
      | .error _ => .error ()
      | .ok out =>
        match out.buf with
        | none => .ok none
        | some b =>
          if b.length = 0 then .ok none
          else .ok (some (str "base64://" ++ b64encode b))

/-- Source `downloadImageUrlAsBase64(rawUrl)`: the `try` body with the
`catch` converting any escaping exception into a `null` return. -/
def downloadImageUrlAsBase64 (env : VisionEnv) (rawUrl : Str) : Option Str :=
  match downloadAttempt env rawUrl with
  | .ok r => r
  | .error _ => none

/-- Modelled from the spec: the shared **Remote-Image-to-Embedded-Payload** /
branch-4 GET retrieval policy — fetch, fail on non-success status, fail on a
declared content-length over the maximum, stream with the running byte
counter, fail on an empty body; yields the retrieved bytes. Used as the
common reference point of the refinement claim. -/
def remoteImageRetrieval (env : VisionEnv) : Except Unit (Option (List Nat)) :=
  match env.getResult with
  | .error _ => .error ()
  | .ok res =>
    if res.ok = false then .ok none
    else if getDeclaresOversize res then .ok none
    else
      match readResponseBodyWithLimit res.body MAX_VISION_IMAGE_BYTES true with
      | .error _ => .error ()
      | .ok out =>
        match out.buf with
        | none => .ok none
        | some b =>
          if b.length = 0 then .ok none
          else .ok (some b)

/-- Extension that the network branch of `materializeImageForVision` resolves
for a successful GET: content-type header, then URL extension, then `.jpg`. -/
def visionExtFor (env : VisionEnv) (rawUrl : Str) : Str :=
  match env.getResult with
  | .error _ => str ".jpg"
  | .ok res =>
    match extFromContentType res.contentType with
    | some e => e
    | none =>
      match extFromUrl env rawUrl with
      | some e => e
      | none => str ".jpg"

/- ### Request/response correlator (scripts/qq-send-media-repro.mjs) -/

/-- A parsed inbound JSON message: the optional `echo` field and the
remaining fields, uninterpreted. -/
structure Payload where
  echo : Option Str
  fields : List (Str × Str)
deriving DecidableEq

/-- A raw inbound frame: either not valid JSON, or a parsed payload. -/
inductive InMsg where
  | nonJson : Str → InMsg
  | json : Payload → InMsg
deriving DecidableEq

/-- Source `ws.on("message")` handler: non-JSON frames are logged and
discarded; a payload with a truthy `echo` held in the pending map removes the
entry and delivers the payload to its resolver. Returns the new pending map
(as its token list) and the delivery, if any. -/
def handleMessage (pnd : List Str) (m : InMsg) : List Str × Option (Str × Payload) :=
  match m with
  | .nonJson _ => (pnd, none)
  | .json p =>
    match p.echo with
    | none => (pnd, none)
    | some e =>
      if e ≠ [] ∧ e ∈ pnd then (pnd.erase e, some (e, p)) else (pnd, none)

/-- Events observable by one in-flight `call`: an inbound frame, or the
expiry of its own timeout timer. -/
inductive CallEvent where
  | msg : InMsg → CallEvent
  | timer : CallEvent
deriving DecidableEq

/-- Terminal state of a `call`'s promise. -/
inductive CallOutcome where
  | resolved : Payload → CallOutcome
  | timedOut : Str → CallOutcome
deriving DecidableEq

/-- Message of the rejection produced on timer expiry (source line 99). -/
def timeoutErrMsg (action echo : Str) : Str :=
  str "timeout action=" ++ action ++ str " echo=" ++ echo

/-- Default `timeoutMs` of `call` (source line 90). -/
def defaultCallTimeoutMs : Nat := 25000

/-- Correlation token generated by `call`: counter plus wall-clock seed. -/
def mkEcho (nowMs seq : Nat) : Str :=
  str "repro_" ++ natStr nowMs ++ str "_" ++ natStr seq

/-- Life of one `call` whose token is `echo`, from registration onward: each
inbound frame runs the message handler; delivery to `echo` resolves the
promise; the timer event deletes the entry and rejects with the timeout
error. Yields the settled outcome (if any) and the pending map at that
moment. -/
def runCall (action echo : Str) : List Str → List CallEvent → Option CallOutcome × List Str
  | pnd, [] => (none, pnd)
  | pnd, .timer :: _ =>
      (some (.timedOut (timeoutErrMsg action echo)), pnd.erase echo)
  | pnd, .msg m :: rest =>
      let h := handleMessage pnd m
      match h.2 with
      | some ep => if ep.1 = echo then (some (.resolved ep.2), h.1) else runCall action echo h.1 rest
      | none => runCall action echo h.1 rest

/- ### Repro script argument handling and exit codes -/

/-- Source `parseArgs` loop body, from the first real argument on: `--key`
followed by a non-flag value binds it; a `--key` followed by nothing, an
empty string or another flag binds `"true"` without consuming the next
token. -/
def parseArgsLoop : List Str → List (Str × Str)
  | [] => []
  | [t] =>
    if startsWith (str "--") t = false then []
    else [(t.drop (str "--").length, str "true")]
  | t :: next :: rest2 =>
    if startsWith (str "--") t = false then parseArgsLoop (next :: rest2)
    else
      let key := t.drop (str "--").length
      if next = [] ∨ startsWith (str "--") next = true then
        (key, str "true") :: parseArgsLoop (next :: rest2)
      else (key, next) :: parseArgsLoop rest2

/-- Source `parseArgs(argv)`: skips the interpreter and script path. -/
def parseArgs (argv : List Str) : List (Str × Str) := parseArgsLoop (argv.drop 2)

/-- Last binding of a key, as JS object assignment overwrites earlier ones. -/
def lookupArg (args : List (Str × Str)) (k : Str) : Option Str :=
  (args.reverse.find? (fun kv => kv.1 == k)).map (fun kv => kv.2)

/-- JS truthiness of a possibly-absent string. -/
def jsTruthyOpt : Option Str → Bool
  | none => false
  | some s => s != []

/-- JS `a || b` on possibly-absent strings. -/
def jsOrOpt (a b : Option Str) : Option Str := if jsTruthyOpt a then a else b

/-- JS `Number.parseInt(s, 10)`: leading whitespace, optional sign, longest
digit run; `none` models `NaN`. -/
def jsParseInt10 (s : Str) : Option Int :=
  let t := s.dropWhile jsWhitespace
  match t with
  | '-' :: r =>
    let ds := r.takeWhile Char.isDigit
    if ds = [] then none else some (-(digitsToNat ds : Int))
  | '+' :: r =>
    let ds := r.takeWhile Char.isDigit
    if ds = [] then none else some (digitsToNat ds : Int)
  | r =>
    let ds := r.takeWhile Char.isDigit
    if ds = [] then none else some (digitsToNat ds : Int)

/-- Process exit codes of the repro script. -/
inductive ExitCode where
  | code0 : ExitCode
  | code1 : ExitCode
  | code2 : ExitCode
deriving DecidableEq

/-- External behaviour driving one run of `main`: the argument vector, the
two environment variables, file existence (`existsFile`), whether the socket
opens, and whether the i-th sequential control call fails (timeout or
transport). -/
structure MainEnv where
  argv : List Str
  envWsUrl : Option Str
  envToken : Option Str
  fileOk : Str → Bool
  connectOk : Bool
  callFails : Nat → Bool

/-- Resolved `wsUrl` of `main`: `--ws` or the `ONEBOT_WS_URL` variable. -/
def resolvedWs (env : MainEnv) : Option Str :=
  jsOrOpt (lookupArg (parseArgs env.argv) (str "ws")) env.envWsUrl

/-- Resolved `--mp4` argument. -/
def resolvedMp4 (env : MainEnv) : Option Str :=
  lookupArg (parseArgs env.argv) (str "mp4")

/-- Resolved `--txt` argument. -/
def resolvedTxt (env : MainEnv) : Option Str :=
  lookupArg (parseArgs env.argv) (str "txt")

/-- Resolved `--group` argument with its source default. -/
def resolvedGroup (env : MainEnv) : Option Str :=
  jsOrOpt (lookupArg (parseArgs env.argv) (str "group")) (some (str "883766069"))

/-- Exit code of one run: `main` exits 2 itself on missing arguments or
missing input files; every exception it lets escape (socket error, the
invalid `--group` throw, a failed call) reaches `main().catch`, which exits
1; a completed run exits 0. -/
def mainExit (env : MainEnv) : ExitCode :=
  if jsTruthyOpt (resolvedWs env) = false ∨ jsTruthyOpt (resolvedMp4 env) = false ∨
      jsTruthyOpt (resolvedTxt env) = false then .code2
  else if env.fileOk ((resolvedMp4 env).getD []) = false then .code2
  else if env.fileOk ((resolvedTxt env).getD []) = false then .code2
  else if env.connectOk = false then .code1
  else
    match jsParseInt10 ((resolvedGroup env).getD []) with
    | none => .code1
    | some _ =>
      if env.callFails 0 || env.callFails 1 || env.callFails 2 || env.callFails 3 ||
          env.callFails 4 || env.callFails 5 then .code1
      else .code0

/- ### Lemmas about the limited body read -/

/-- Total byte count of a chunk list. -/
def chunksTotal (cs : List (List Nat)) : Nat := (cs.map List.length).sum

theorem readLoop_trip (maxBytes : Nat) (hasCtl : Bool) :
    ∀ (cs : List (List Nat)) (e : Bool) (rec : Nat) (acc : List (List Nat)),
      rec ≤ maxBytes → maxBytes < rec + chunksTotal cs →
      readLoop maxBytes hasCtl rec acc cs e = .ok ⟨none, hasCtl⟩ := by
  intro cs
  induction cs with
  | nil =>
    intro e rec acc hle hlt
    simp [chunksTotal] at hlt
    omega
  | cons c cs ih =>
    intro e rec acc hle hlt
    simp only [chunksTotal, List.map_cons, List.sum_cons] at hlt
    unfold readLoop
    by_cases hc : maxBytes < rec + c.length
    · simp [hc]
    · simp only [hc, if_false]
      exact ih e (rec + c.length) (acc ++ [c]) (by omega) (by simp [chunksTotal]; omega)

theorem readLoop_done (maxBytes : Nat) (hasCtl : Bool) :
    ∀ (cs : List (List Nat)) (e : Bool) (rec : Nat) (acc : List (List Nat)),
      rec + chunksTotal cs ≤ maxBytes →
      readLoop maxBytes hasCtl rec acc cs e =
        (if e then .error () else .ok ⟨some (acc ++ cs).flatten, false⟩) := by
  intro cs
  induction cs with
  | nil =>
    intro e rec acc _
    simp [readLoop]
  | cons c cs ih =>
    intro e rec acc hle
    simp only [chunksTotal, List.map_cons, List.sum_cons] at hle
    unfold readLoop
    have hc : ¬ maxBytes < rec + c.length := by omega
    simp only [hc, if_false]
    have := ih e (rec + c.length) (acc ++ [c]) (by simp [chunksTotal]; omega)
    rw [this]
    simp

/-- C9: `readResponseBodyWithLimit` yields a `null` buffer exactly when the
cumulative chunk bytes exceed `maxBytes` — aborting the supplied controller
in that case — every non-null buffer is the concatenation of the chunks and
is at most `maxBytes` long, and an absent body yields an empty buffer, not
null. -/
theorem readResponseBodyWithLimit_spec (maxBytes : Nat) (hasCtl : Bool) :
    (readResponseBodyWithLimit .noBody maxBytes hasCtl = .ok ⟨some [], false⟩) ∧
    (∀ cs e, maxBytes < chunksTotal cs →
      readResponseBodyWithLimit (.stream cs e) maxBytes hasCtl = .ok ⟨none, hasCtl⟩) ∧
    (∀ cs e,
      (∃ out, readResponseBodyWithLimit (.stream cs e) maxBytes hasCtl = .ok out ∧
          out.buf = none) ↔ maxBytes < chunksTotal cs) ∧
    (∀ cs e out b, readResponseBodyWithLimit (.stream cs e) maxBytes hasCtl = .ok out →
      out.buf = some b → b = cs.flatten ∧ b.length ≤ maxBytes) := by
  refine ⟨rfl, ?_, ?_, ?_⟩
  · intro cs e h
    unfold readResponseBodyWithLimit
    exact readLoop_trip maxBytes hasCtl cs e 0 [] (Nat.zero_le _) (by omega)
  · intro cs e
    constructor
    · rintro ⟨out, hout, hbuf⟩
      by_contra hle
      push_neg at hle
      have := readLoop_done maxBytes hasCtl cs e 0 [] (by omega)
      simp only [readResponseBodyWithLimit] at hout
      rw [this] at hout
      cases e with
      | true => simp at hout
      | false =>
        simp at hout
        rw [← hout] at hbuf
        simp at hbuf
    · intro h
      exact ⟨⟨none, hasCtl⟩, readLoop_trip maxBytes hasCtl cs e 0 [] (Nat.zero_le _) (by omega), rfl⟩
  · intro cs e out b hout hbuf
    by_cases hlt : maxBytes < chunksTotal cs
    · have := readLoop_trip maxBytes hasCtl cs e 0 [] (Nat.zero_le _) (by omega)
      simp only [readResponseBodyWithLimit] at hout
      rw [this] at hout
      cases hout
      simp at hbuf
    · push_neg at hlt
      have := readLoop_done maxBytes hasCtl cs e 0 [] (by omega)
      simp only [readResponseBodyWithLimit] at hout
      rw [this] at hout
      cases e with
      | true => simp at hout
      | false =>
        simp at hout
        rw [← hout] at hbuf
        simp at hbuf
        subst hbuf
        refine ⟨rfl, ?_⟩
        have hlen : cs.flatten.length = chunksTotal cs := by
          simp [chunksTotal, List.length_flatten]
        omega

/-- Closed instance of `readResponseBodyWithLimit_spec`: a three-byte body
against a two-byte limit trips the limit and aborts the supplied controller. -/
theorem readResponseBodyWithLimit_spec_witness :
    2 < chunksTotal [[1, 2, 3]] ∧
    readResponseBodyWithLimit (.stream [[1, 2, 3]] false) 2 true = .ok ⟨none, true⟩ := by
  constructor
  · decide
  · exact (readResponseBodyWithLimit_spec 2 true).2.1 [[1, 2, 3]] false (by decide)

/- ### C10: parseContentLength -/

/-- C10: `parseContentLength` yields `none` on an absent, empty, non-numeric,
negative or non-finite header value and otherwise the exactly parsed number;
non-integer numeric strings are accepted, e.g. `"3.5"` parses to `7/2`. -/
theorem parseContentLength_spec :
    parseContentLength none = none ∧
    parseContentLength (some []) = none ∧
    (∀ v, jsNumber v = .nan → parseContentLength (some v) = none) ∧
    (∀ v, jsNumber v = .posInf → parseContentLength (some v) = none) ∧
    (∀ v, jsNumber v = .negInf → parseContentLength (some v) = none) ∧
    (∀ v q, jsNumber v = .val q → q.num < 0 → parseContentLength (some v) = none) ∧
    (∀ v q, v ≠ [] → jsNumber v = .val q → 0 ≤ q.num → parseContentLength (some v) = some q) ∧
    (parseContentLength (some (str "3.5")) = some ⟨35, 1⟩ ∧ DecNum.toRat ⟨35, 1⟩ = 7 / 2) := by
  refine ⟨rfl, rfl, ?_, ?_, ?_, ?_, ?_, by decide, by norm_num [DecNum.toRat]⟩
  · intro v h
    by_cases hv : v = []
    · subst hv; rfl
    · simp [parseContentLength, hv, h]
  · intro v h
    by_cases hv : v = []
    · subst hv; rfl
    · simp [parseContentLength, hv, h]
  · intro v h
    by_cases hv : v = []
    · subst hv; rfl
    · simp [parseContentLength, hv, h]
  · intro v q h hneg
    by_cases hv : v = []
    · subst hv; rfl
    · have : q.nonneg = false := by simp [DecNum.nonneg]; omega
      simp [parseContentLength, hv, h, this]
  · intro v q hv h hpos
    have : q.nonneg = true := by simp [DecNum.nonneg]; omega
    simp [parseContentLength, hv, h, this]

/-- Closed instance of `parseContentLength_spec`: the header value `"120"`
parses to the finite non-negative number 120 and is returned as-is. -/
theorem parseContentLength_spec_witness :
    jsNumber (str "120") = .val ⟨120, 0⟩ ∧
    parseContentLength (some (str "120")) = some ⟨120, 0⟩ := by
  refine ⟨by decide, ?_⟩
  exact parseContentLength_spec.2.2.2.2.2.2.1 (str "120") ⟨120, 0⟩ (by decide) (by decide)
    (by decide)

/- ### Concrete environments used by closed instances -/

/-- Environment in which every external capability fails: no files, no
network, no URL parsing. -/
def plainEnv : VisionEnv :=
  { uriDecode := fun _ => .error (), stat := fun _ => none, urlPathname := fun _ => none,
    headResult := .error (), getResult := .error (), nowMs := 0 }

/- ### C2: embedded-data acquisition -/

/-- C2 counterexample: the reference `"base64://aGVsbG8="` decodes to the
five bytes of `"hello"`, not eight; the acquisition writes exactly those five
bytes, so the written content cannot equal "the 8 decoded bytes". -/
theorem base64_scenario_decodes_five_bytes :
    b64decode (str "aGVsbG8=") = [104, 101, 108, 108, 111] ∧
    (b64decode (str "aGVsbG8=")).length = 5 ∧
    ¬ (b64decode (str "aGVsbG8=")).length = 8 ∧
    materializeImageForVision plainEnv (str "base64://aGVsbG8=") (str "m") 0 =
      ⟨some (str "/tmp/qq_vision_m_0_0.jpg"),
       [(str "/tmp/qq_vision_m_0_0.jpg", [104, 101, 108, 108, 111])], false, false⟩ := by
  refine ⟨by decide, by decide, by decide, by decide⟩

/-- C2 (amended): for every non-empty embedded-data input whose decode is
non-empty and within the limit, the acquisition writes exactly the decoded
bytes to the returned temp path, whose extension is the default `.jpg`. -/
theorem base64_acquire_lossless (env : VisionEnv) (body messageId : Str) (index : Nat)
    (hdec : b64decode body ≠ [])
    (hsz : (b64decode body).length ≤ MAX_VISION_IMAGE_BYTES) :
    materializeImageForVision env (str "base64://" ++ body) messageId index =
      ⟨some (tempImageName env messageId index (str ".jpg")),
       [(tempImageName env messageId index (str ".jpg"), b64decode body)], false, false⟩ := by
  have h0 : (str "base64://" ++ body) ≠ [] := by simp [str]
  have hbody : body ≠ [] := by
    intro h
    apply hdec
    subst h
    rfl
  have h1 : startsWith (str "base64://") (str "base64://" ++ body) = true := rfl
  have h2 : (str "base64://" ++ body).drop (str "base64://").length = body := rfl
  have hcond : ¬ ((b64decode body).length = 0 ∨
      MAX_VISION_IMAGE_BYTES < (b64decode body).length) := by
    push_neg
    exact ⟨fun h => hdec (List.length_eq_zero.mp h), by omega⟩
  simp only [materializeImageForVision, if_neg h0, materializeAttempt, h1, h2,
    if_true, if_neg hbody, if_neg hcond, writeTempImageFile]

/-- Closed instance of `base64_acquire_lossless`: the reference scenario with
its five actual decoded bytes. -/
theorem base64_acquire_lossless_witness :
    b64decode (str "aGVsbG8=") ≠ [] ∧
    (b64decode (str "aGVsbG8=")).length ≤ MAX_VISION_IMAGE_BYTES ∧
    materializeImageForVision plainEnv (str "base64://" ++ str "aGVsbG8=") (str "m") 0 =
      ⟨some (tempImageName plainEnv (str "m") 0 (str ".jpg")),
       [(tempImageName plainEnv (str "m") 0 (str ".jpg"), b64decode (str "aGVsbG8="))],
       false, false⟩ := by
  refine ⟨by decide, by decide, ?_⟩
  exact base64_acquire_lossless plainEnv (str "aGVsbG8=") (str "m") 0 (by decide) (by decide)

/- ### C5: local-file and absolute-path acquisition -/

/-- C5: a local-file-scheme or absolute-path reference to an existing regular
file within the limit is returned unchanged with no write and no request; an
absent, non-regular or oversized target yields null with no write — in
particular `"/no/such/file.jpg"` in an environment without that file. -/
theorem local_path_returned_unchanged :
    (∀ (env : VisionEnv) (rest p messageId : Str) (index : Nat) (st : FileStat),
      env.uriDecode rest = .ok p → p ≠ [] → env.stat p = some st → st.isFile = true →
      st.size ≤ MAX_VISION_IMAGE_BYTES →
      materializeImageForVision env (str "file://" ++ rest) messageId index =
        ⟨some p, [], false, false⟩) ∧
    (∀ (env : VisionEnv) (t messageId : Str) (index : Nat) (st : FileStat),
      env.stat ('/' :: t) = some st → st.isFile = true → st.size ≤ MAX_VISION_IMAGE_BYTES →
      materializeImageForVision env ('/' :: t) messageId index =
        ⟨some ('/' :: t), [], false, false⟩) ∧
    (∀ (env : VisionEnv) (rest p messageId : Str) (index : Nat),
      env.uriDecode rest = .ok p →
      (env.stat p = none ∨ ∃ st, env.stat p = some st ∧
        (st.isFile = false ∨ MAX_VISION_IMAGE_BYTES < st.size)) →
      materializeImageForVision env (str "file://" ++ rest) messageId index =
        ⟨none, [], false, false⟩) ∧
    (∀ (env : VisionEnv) (t messageId : Str) (index : Nat),
      (env.stat ('/' :: t) = none ∨ ∃ st, env.stat ('/' :: t) = some st ∧
        (st.isFile = false ∨ MAX_VISION_IMAGE_BYTES < st.size)) →
      materializeImageForVision env ('/' :: t) messageId index =
        ⟨none, [], false, false⟩) := by
  refine ⟨?_, ?_, ?_, ?_⟩
  · intro env rest p messageId index st hdec hp hst hisf hsz
    have h0 : (str "file://" ++ rest) ≠ [] := by simp [str]
    have h1 : startsWith (str "base64://") (str "file://" ++ rest) = false := rfl
    have h2 : startsWith (str "file://") (str "file://" ++ rest) = true := rfl
    have h3 : (str "file://" ++ rest).drop (str "file://").length = rest := rfl
    have hcond : ¬ (st.isFile = false ∨ MAX_VISION_IMAGE_BYTES < st.size) := by
      push_neg
      exact ⟨by simp [hisf], by omega⟩
    simp only [materializeImageForVision, if_neg h0, materializeAttempt, h1, h2, h3,
      Bool.false_eq_true, if_false, if_true, hdec, if_neg hp, hst, if_neg hcond]
  · intro env t messageId index st hst hisf hsz
    have h1 : startsWith (str "base64://") ('/' :: t) = false := rfl
    have h2 : startsWith (str "file://") ('/' :: t) = false := rfl
    have h3 : startsWith (str "/") ('/' :: t) = true := rfl
    have hcond : ¬ (st.isFile = false ∨ MAX_VISION_IMAGE_BYTES < st.size) := by
      push_neg
      exact ⟨by simp [hisf], by omega⟩
    simp only [materializeImageForVision, List.cons_ne_nil, if_false, if_neg (by simp :
        ¬ ('/' :: t : Str) = []), materializeAttempt, h1, h2, h3,
      Bool.false_eq_true, if_true, hst, if_neg hcond]
  · intro env rest p messageId index hdec hbad
    have h0 : (str "file://" ++ rest) ≠ [] := by simp [str]
    have h1 : startsWith (str "base64://") (str "file://" ++ rest) = false := rfl
    have h2 : startsWith (str "file://") (str "file://" ++ rest) = true := rfl
    have h3 : (str "file://" ++ rest).drop (str "file://").length = rest := rfl
    by_cases hp : p = []
    · simp only [materializeImageForVision, if_neg h0, materializeAttempt, h1, h2, h3,
        Bool.false_eq_true, if_false, if_true, hdec, hp, if_pos rfl]
    · rcases hbad with hnone | ⟨st, hst, hor⟩
      · simp only [materializeImageForVision, if_neg h0, materializeAttempt, h1, h2, h3,
          Bool.false_eq_true, if_false, if_true, hdec, if_neg hp, hnone]
      · simp only [materializeImageForVision, if_neg h0, materializeAttempt, h1, h2, h3,
          Bool.false_eq_true, if_false, if_true, hdec, if_neg hp, hst, if_pos hor]
  · intro env t messageId index hbad
    have h1 : startsWith (str "base64://") ('/' :: t) = false := rfl
    have h2 : startsWith (str "file://") ('/' :: t) = false := rfl
    have h3 : startsWith (str "/") ('/' :: t) = true := rfl
    rcases hbad with hnone | ⟨st, hst, hor⟩
    · simp only [materializeImageForVision, if_neg (by simp : ¬ ('/' :: t : Str) = []),
        materializeAttempt, h1, h2, h3, Bool.false_eq_true, if_false, if_true, hnone]
    · simp only [materializeImageForVision, if_neg (by simp : ¬ ('/' :: t : Str) = []),
        materializeAttempt, h1, h2, h3, Bool.false_eq_true, if_false, if_true, hst,
        if_pos hor]

/-- Closed instance of `local_path_returned_unchanged`: the reference
`"/no/such/file.jpg"` in an environment without that file returns null. -/
theorem local_path_returned_unchanged_witness :
    plainEnv.stat (str "/no/such/file.jpg") = none ∧
    materializeImageForVision plainEnv (str "/no/such/file.jpg") (str "m") 0 =
      ⟨none, [], false, false⟩ := by
  refine ⟨rfl, ?_⟩
  exact local_path_returned_unchanged.2.2.2 plainEnv (str "no/such/file.jpg") (str "m") 0
    (Or.inl rfl)

/- ### C6: expected failures never escape; unrecognized forms are inert -/

/-- C6: whenever the `try` body of the acquisition throws, the `catch`
converts it into a null return — and no file had been written by then; a
reference matching none of the recognised forms (embedded data, file scheme,
absolute path, http/https URL — which also covers the empty reference)
returns null with no write and no HTTP request. -/
theorem materialize_never_throws_unrecognized_inert :
    (∀ (env : VisionEnv) (u messageId : Str) (index : Nat) (e : AcqEff),
      materializeAttempt env u messageId index = .error e →
      materializeImageForVision env u messageId index =
        ⟨none, e.writes, e.headReq, e.getReq⟩ ∧ e.writes = []) ∧
    (∀ (env : VisionEnv) (u messageId : Str) (index : Nat),
      startsWith (str "base64://") u = false → startsWith (str "file://") u = false →
      startsWith (str "/") u = false → startsWith (str "http://") u = false →
      startsWith (str "https://") u = false →
      materializeImageForVision env u messageId index = ⟨none, [], false, false⟩) := by
  constructor
  · intro env u messageId index e h
    by_cases hu : u = []
    · subst hu
      have hok : materializeAttempt env [] messageId index = .ok ⟨none, [], false, false⟩ := rfl
      rw [hok] at h
      exact absurd h (by simp)
    · refine ⟨by simp only [materializeImageForVision, if_neg hu, h], ?_⟩
      unfold materializeAttempt at h
      dsimp only at h
      repeat' split at h
      all_goals
        first
        | (injection h with h2
           subst h2
           rfl)
        | exact absurd h (by simp)
  · intro env u messageId index hb hf hs hh hhs
    by_cases hu : u = []
    · subst hu; rfl
    · have hatt : materializeAttempt env u messageId index = .ok ⟨none, [], false, false⟩ := by
        unfold materializeAttempt
        simp only [hb, hf, hs, hh, hhs, Bool.false_eq_true, if_false, Bool.or_self]
      simp only [materializeImageForVision, if_neg hu, hatt]

/-- Closed instance of `materialize_never_throws_unrecognized_inert`: an
`ftp://` reference returns null with no side effects. -/
theorem materialize_unrecognized_inert_witness :
    materializeImageForVision plainEnv (str "ftp://example/a.png") (str "m") 0 =
      ⟨none, [], false, false⟩ := by
  exact materialize_never_throws_unrecognized_inert.2 plainEnv (str "ftp://example/a.png")
    (str "m") 0 rfl rfl rfl rfl rfl

/- ### C1: oversized inputs are rejected before any write -/

/-- Excess declared or observed during the network branch: a successful HEAD
response declaring a content-length above the limit, a GET response declaring
one, or a GET body whose cumulative chunk bytes exceed the limit. -/
def httpOversize (env : VisionEnv) : Prop :=
  (∃ hr q, env.headResult = .ok hr ∧ hr.ok = true ∧
      parseContentLength hr.contentLength = some q ∧
      natLtDecNum MAX_VISION_IMAGE_BYTES q = true) ∨
  (∃ gr, env.getResult = .ok gr ∧
    ((∃ q, parseContentLength gr.contentLength = some q ∧
        natLtDecNum MAX_VISION_IMAGE_BYTES q = true) ∨
      (∃ cs e, gr.body = .stream cs e ∧ MAX_VISION_IMAGE_BYTES < chunksTotal cs)))

/-- A reference whose byte size exceeds the maximum, in the sense the helper
can see it: decoded base64 length, local-file stat size (through either local
form), or a network declared/observed excess. -/
def oversizedReference (env : VisionEnv) (u : Str) : Prop :=
  (∃ body, u = str "base64://" ++ body ∧
      MAX_VISION_IMAGE_BYTES < (b64decode body).length) ∨
  (∃ rest p st, u = str "file://" ++ rest ∧ env.uriDecode rest = .ok p ∧
      env.stat p = some st ∧ MAX_VISION_IMAGE_BYTES < st.size) ∨
  (∃ t st, u = '/' :: t ∧ env.stat u = some st ∧ MAX_VISION_IMAGE_BYTES < st.size) ∨
  ((∃ r, u = str "http://" ++ r ∨ u = str "https://" ++ r) ∧ httpOversize env)

/-- C1: whenever the input's size exceeds `MAX_VISION_IMAGE_BYTES` — declared
via base64 decode length, file stat size, or content-length header, or
observed while streaming the GET body — the acquisition returns null and
writes no temporary file. -/
theorem vision_oversize_returns_null (env : VisionEnv) (u messageId : Str) (index : Nat)
    (hover : oversizedReference env u) :
    (materializeImageForVision env u messageId index).result = none ∧
    (materializeImageForVision env u messageId index).writes = [] := by
  rcases hover with ⟨body, rfl, hlen⟩ | ⟨rest, p, st, rfl, hdec, hst, hsz⟩ |
    ⟨t, st, rfl, hst, hsz⟩ | ⟨⟨r, hu⟩, hhttp⟩
  · have h0 : (str "base64://" ++ body) ≠ [] := by simp [str]
    have h1 : startsWith (str "base64://") (str "base64://" ++ body) = true := rfl
    have h2 : (str "base64://" ++ body).drop (str "base64://").length = body := rfl
    have hb : body ≠ [] := by
      intro h
      subst h
      simp [b64decode, b64Sextets, b64DecodeVals] at hlen
    have hcond : (b64decode body).length = 0 ∨
        MAX_VISION_IMAGE_BYTES < (b64decode body).length := Or.inr hlen
    simp only [materializeImageForVision, if_neg h0, materializeAttempt, h1, h2, if_true,
      if_neg hb, if_pos hcond]
    exact ⟨by simp, by simp⟩
  · have h0 : (str "file://" ++ rest) ≠ [] := by simp [str]
    have h1 : startsWith (str "base64://") (str "file://" ++ rest) = false := rfl
    have h2 : startsWith (str "file://") (str "file://" ++ rest) = true := rfl
    have h3 : (str "file://" ++ rest).drop (str "file://").length = rest := rfl
    by_cases hp : p = []
    · simp only [materializeImageForVision, if_neg h0, materializeAttempt, h1, h2, h3,
        Bool.false_eq_true, if_false, if_true, hdec, hp, if_pos rfl]
      exact ⟨by simp, by simp⟩
    · simp only [materializeImageForVision, if_neg h0, materializeAttempt, h1, h2, h3,
        Bool.false_eq_true, if_false, if_true, hdec, if_neg hp, hst,
        if_pos (Or.inr hsz : st.isFile = false ∨ MAX_VISION_IMAGE_BYTES < st.size)]
      exact ⟨by simp, by simp⟩
  · have h1 : startsWith (str "base64://") ('/' :: t) = false := rfl
    have h2 : startsWith (str "file://") ('/' :: t) = false := rfl
    have h3 : startsWith (str "/") ('/' :: t) = true := rfl
    simp only [materializeImageForVision, if_neg (by simp : ¬ ('/' :: t : Str) = []),
      materializeAttempt, h1, h2, h3, Bool.false_eq_true, if_false, if_true, hst,
      if_pos (Or.inr hsz : st.isFile = false ∨ MAX_VISION_IMAGE_BYTES < st.size)]
    exact ⟨by simp, by simp⟩
  · have h0 : u ≠ [] := by rcases hu with rfl | rfl <;> simp [str]
    have h1 : startsWith (str "base64://") u = false := by rcases hu with rfl | rfl <;> rfl
    have h2 : startsWith (str "file://") u = false := by rcases hu with rfl | rfl <;> rfl
    have h3 : startsWith (str "/") u = false := by rcases hu with rfl | rfl <;> rfl
    have h4 : (startsWith (str "http://") u || startsWith (str "https://") u) = true := by
      rcases hu with rfl | rfl <;> rfl
    rcases hhttp with ⟨hr, q, hhr, hok, hpq, hlt⟩ | ⟨gr, hgr, hrest⟩
    · have hHead : headDeclaresOversize env = true := by
        simp [headDeclaresOversize, hhr, hok, hpq, hlt]
      simp only [materializeImageForVision, if_neg h0, materializeAttempt, h1, h2, h3, h4,
        Bool.false_eq_true, if_false, if_true, hHead]
      exact ⟨by simp, by simp⟩
    · by_cases hHead : headDeclaresOversize env = true
      · simp only [materializeImageForVision, if_neg h0, materializeAttempt, h1, h2, h3, h4,
          Bool.false_eq_true, if_false, if_true, hHead]
        exact ⟨by simp, by simp⟩
      · have hHead2 : headDeclaresOversize env = false := by
          simpa using hHead
        by_cases hgok : gr.ok = true
        · rcases hrest with ⟨q, hpq, hlt⟩ | ⟨cs, e, hbody, hstream⟩
          · have hGet : getDeclaresOversize gr = true := by
              simp [getDeclaresOversize, hpq, hlt]
            simp only [materializeImageForVision, if_neg h0, materializeAttempt, h1, h2, h3,
              h4, Bool.false_eq_true, if_false, if_true, hHead2, hgr, hgok,
              Bool.true_eq_false, hGet]
            exact ⟨by simp, by simp⟩
          · by_cases hGet : getDeclaresOversize gr = true
            · simp only [materializeImageForVision, if_neg h0, materializeAttempt, h1, h2,
                h3, h4, Bool.false_eq_true, if_false, if_true, hHead2, hgr, hgok,
                Bool.true_eq_false, hGet]
              exact ⟨by simp, by simp⟩
            · have hGet2 : getDeclaresOversize gr = false := by simpa using hGet
              have hread : readResponseBodyWithLimit gr.body MAX_VISION_IMAGE_BYTES true =
                  .ok ⟨none, true⟩ := by
                rw [hbody]
                exact readLoop_trip MAX_VISION_IMAGE_BYTES true cs e 0 []
                  (Nat.zero_le _) (by omega)
              simp only [materializeImageForVision, if_neg h0, materializeAttempt, h1, h2,
                h3, h4, Bool.false_eq_true, if_false, if_true, hHead2, hgr, hgok,
                Bool.true_eq_false, hGet2, hread]
              exact ⟨by simp, by simp⟩
        · have hgok2 : gr.ok = false := by simpa using hgok
          simp only [materializeImageForVision, if_neg h0, materializeAttempt, h1, h2, h3,
            h4, Bool.false_eq_true, if_false, if_true, hHead2, hgr, hgok2]
          exact ⟨by simp, by simp⟩

/-- Closed instance of `vision_oversize_returns_null`: a GET response
declaring a 99999999-byte body against the 10485760-byte limit. -/
def overEnv : VisionEnv :=
  { plainEnv with getResult := .ok ⟨true, some (str "99999999"), none, .noBody⟩ }

/-- Closed instance of `vision_oversize_returns_null` at `overEnv`. -/
theorem vision_oversize_returns_null_witness :
    oversizedReference overEnv (str "http://x/a.jpg") ∧
    (materializeImageForVision overEnv (str "http://x/a.jpg") (str "m") 0).result = none ∧
    (materializeImageForVision overEnv (str "http://x/a.jpg") (str "m") 0).writes = [] := by
  have hov : oversizedReference overEnv (str "http://x/a.jpg") := by
    refine Or.inr (Or.inr (Or.inr ⟨⟨str "x/a.jpg", Or.inl rfl⟩, Or.inr ?_⟩))
    exact ⟨⟨true, some (str "99999999"), none, .noBody⟩, rfl,
      Or.inl ⟨⟨99999999, 0⟩, by decide, by decide⟩⟩
  exact ⟨hov, vision_oversize_returns_null overEnv (str "http://x/a.jpg") (str "m") 0 hov⟩

/- ### C8: download vs the network branch of the acquisition -/

/-- Environment with a successful two-byte GET response, used by the closed
network instances. -/
def dlEnv : VisionEnv :=
  { plainEnv with getResult := .ok ⟨true, none, none, .stream [[104, 105]] false⟩ }

theorem downloadAttempt_eq_retrieval (env : VisionEnv) (u : Str) :
    downloadAttempt env u =
      (remoteImageRetrieval env).map
        (fun o => o.map (fun b => str "base64://" ++ b64encode b)) := by
  unfold downloadAttempt remoteImageRetrieval
  cases hg : env.getResult with
  | error e => rfl
  | ok res =>
    by_cases h1 : res.ok = false
    · simp [h1, Except.map]
    · by_cases h2 : getDeclaresOversize res = true
      · simp [h1, h2, Except.map]
      · cases hr : readResponseBodyWithLimit res.body MAX_VISION_IMAGE_BYTES true with
        | error e2 => simp [h1, h2, hr, Except.map]
        | ok out =>
          cases hb : out.buf with
          | none => simp [h1, h2, hr, hb, Except.map]
          | some b =>
            by_cases hlen : b.length = 0
            · simp [h1, h2, hr, hb, hlen, Except.map]
            · simp [h1, h2, hr, hb, hlen, Except.map]

theorem materializeAttempt_http_eq_retrieval (env : VisionEnv) (r u messageId : Str)
    (index : Nat) (hu : u = str "http://" ++ r ∨ u = str "https://" ++ r)
    (hHead : headDeclaresOversize env = false) :
    materializeAttempt env u messageId index =
      match remoteImageRetrieval env with
      | .error _ => .error ⟨[], true, true⟩
      | .ok none => .ok ⟨none, [], true, true⟩
      | .ok (some b) =>
          .ok ⟨some (tempImageName env messageId index (visionExtFor env u)),
            [(tempImageName env messageId index (visionExtFor env u), b)], true, true⟩ := by
  have h1 : startsWith (str "base64://") u = false := by rcases hu with rfl | rfl <;> rfl
  have h2 : startsWith (str "file://") u = false := by rcases hu with rfl | rfl <;> rfl
  have h3 : startsWith (str "/") u = false := by rcases hu with rfl | rfl <;> rfl
  have h4 : (startsWith (str "http://") u || startsWith (str "https://") u) = true := by
    rcases hu with rfl | rfl <;> rfl
  unfold materializeAttempt remoteImageRetrieval
  simp only [h1, h2, h3, h4, Bool.false_eq_true, if_false, if_true, hHead]
  cases hg : env.getResult with
  | error e => rfl
  | ok res =>
    by_cases hok : res.ok = false
    · simp [hok]
    · by_cases hGet : getDeclaresOversize res = true
      · simp [hok, hGet]
      · cases hr : readResponseBodyWithLimit res.body MAX_VISION_IMAGE_BYTES true with
        | error e2 => simp [hok, hGet, hr]
        | ok out =>
          cases hb : out.buf with
          | none => simp [hok, hGet, hr, hb]
          | some b =>
            by_cases hlen : b.length = 0
            · simp [hok, hGet, hr, hb, hlen]
            · simp only [hok, Bool.false_eq_true, if_false, hGet, hr, hb, hlen, if_true]
              simp [writeTempImageFile, visionExtFor, hg, hlen]

/-- C8 counterexample: `downloadImageUrlAsBase64` performs no scheme check —
with the same environment (one in which the GET succeeds, as a real fetch of
a `data:` URL does), the download of a non-http/https reference succeeds and
returns the re-encoded payload, while the network branch of
`materializeImageForVision` rejects the same reference without issuing any
request. -/
theorem download_ignores_scheme_check :
    downloadImageUrlAsBase64 dlEnv (str "data:application/octet-stream;base64,aGk=") =
      some (str "base64://aGk=") ∧
    materializeImageForVision dlEnv (str "data:application/octet-stream;base64,aGk=")
      (str "m") 0 = ⟨none, [], false, false⟩ := by
  exact ⟨by decide, by decide⟩

/-- C8 (amended): `downloadImageUrlAsBase64` performs the same
GET-with-limit retrieval as the network branch of `materializeImageForVision`
— failing on non-success status, on a declared content-length over the
maximum, on streamed bytes exceeding the maximum and on an empty body — with
no HEAD pre-check, returning the bytes re-encoded as an embedded-data string
instead of writing a file; unlike the network branch it applies no scheme
check, issuing the GET for any reference whatsoever. -/
theorem download_matches_get_policy :
    (∀ (env : VisionEnv) (u : Str),
      downloadImageUrlAsBase64 env u =
        match remoteImageRetrieval env with
        | .ok (some b) => some (str "base64://" ++ b64encode b)
        | _ => none) ∧
    (∀ (env : VisionEnv) (r u messageId : Str) (index : Nat),
      u = str "http://" ++ r ∨ u = str "https://" ++ r →
      headDeclaresOversize env = false →
      materializeImageForVision env u messageId index =
        match remoteImageRetrieval env with
        | .ok (some b) =>
            ⟨some (tempImageName env messageId index (visionExtFor env u)),
              [(tempImageName env messageId index (visionExtFor env u), b)], true, true⟩
        | _ => ⟨none, [], true, true⟩) := by
  constructor
  · intro env u
    unfold downloadImageUrlAsBase64
    rw [downloadAttempt_eq_retrieval]
    cases remoteImageRetrieval env with
    | error e => rfl
    | ok o => cases o <;> rfl
  · intro env r u messageId index hu hHead
    have h0 : u ≠ [] := by rcases hu with rfl | rfl <;> simp [str]
    unfold materializeImageForVision
    rw [if_neg h0, materializeAttempt_http_eq_retrieval env r u messageId index hu hHead]
    cases remoteImageRetrieval env with
    | error e => rfl
    | ok o => cases o <;> rfl

/-- Closed instance of `download_matches_get_policy`: at `dlEnv`, the
download yields the re-encoded two-byte payload and the network branch
writes the same two bytes to its temp file. -/
theorem download_matches_get_policy_witness :
    headDeclaresOversize dlEnv = false ∧
    downloadImageUrlAsBase64 dlEnv (str "http://x") = some (str "base64://aGk=") ∧
    materializeImageForVision dlEnv (str "http://x") (str "m") 0 =
      ⟨some (tempImageName dlEnv (str "m") 0 (visionExtFor dlEnv (str "http://x"))),
        [(tempImageName dlEnv (str "m") 0 (visionExtFor dlEnv (str "http://x")), [104, 105])],
        true, true⟩ := by
  refine ⟨by decide, ?_, ?_⟩
  · have h := download_matches_get_policy.1 dlEnv (str "http://x")
    rw [h]
    have hret : remoteImageRetrieval dlEnv = .ok (some [104, 105]) := rfl
    rw [hret]
    decide
  · have h := download_matches_get_policy.2 dlEnv (str "x") (str "http://x") (str "m") 0
      (Or.inl rfl) (by decide)
    rw [h]
    have hret : remoteImageRetrieval dlEnv = .ok (some [104, 105]) := rfl
    rw [hret]

/- ### C3/C4: correlator resolution and timeout -/

theorem runCall_pre_walk (action echo : Str) :
    ∀ (pre rest : List CallEvent) (pnd : List Str),
      echo ∈ pnd → pnd.Nodup →
      (∀ e ∈ pre, e ≠ CallEvent.timer ∧
        ∀ q : Payload, e = .msg (.json q) → q.echo ≠ some echo) →
      ∃ pnd2, runCall action echo pnd (pre ++ rest) = runCall action echo pnd2 rest ∧
        echo ∈ pnd2 ∧ pnd2.Nodup := by
  intro pre
  induction pre with
  | nil => intro rest pnd hmem hnd _; exact ⟨pnd, rfl, hmem, hnd⟩
  | cons ev pre ih =>
    intro rest pnd hmem hnd hpre
    have hev := hpre ev (by simp)
    have hpre2 : ∀ e ∈ pre, e ≠ CallEvent.timer ∧
        ∀ q : Payload, e = .msg (.json q) → q.echo ≠ some echo :=
      fun e he => hpre e (by simp [he])
    cases ev with
    | timer => exact absurd rfl hev.1
    | msg m =>
      cases m with
      | nonJson s =>
        simp only [List.cons_append, runCall, handleMessage]
        exact ih rest pnd hmem hnd hpre2
      | json p =>
        cases hp : p.echo with
        | none =>
          simp only [List.cons_append, runCall, handleMessage, hp]
          exact ih rest pnd hmem hnd hpre2
        | some e =>
          have hne : e ≠ echo := by
            intro h
            exact hev.2 p rfl (by rw [hp, h])
          by_cases hc : e ≠ [] ∧ e ∈ pnd
          · simp only [List.cons_append, runCall, handleMessage, hp, if_pos hc]
            rw [if_neg hne]
            exact ih rest (pnd.erase e) ((List.mem_erase_of_ne (Ne.symm hne)).mpr hmem)
              (hnd.erase e) hpre2
          · simp only [List.cons_append, runCall, handleMessage, hp, if_neg hc]
            exact ih rest pnd hmem hnd hpre2

/-- C3: while a call's token is pending, if an inbound message bearing that
echo token arrives before the timer event — with every earlier event neither
the timer nor a matching message — the call resolves with exactly that
message and the token's pending entry is removed. -/
theorem correlator_resolves_on_matching_echo (action echo : Str) (pnd : List Str)
    (pre rest : List CallEvent) (p : Payload)
    (hecho : echo ∈ pnd) (hnodup : pnd.Nodup) (hne : echo ≠ [])
    (hp : p.echo = some echo)
    (hpre : ∀ e ∈ pre, e ≠ CallEvent.timer ∧
      ∀ q : Payload, e = .msg (.json q) → q.echo ≠ some echo) :
    (runCall action echo pnd (pre ++ CallEvent.msg (InMsg.json p) :: rest)).1 =
      some (.resolved p) ∧
    echo ∉ (runCall action echo pnd (pre ++ CallEvent.msg (InMsg.json p) :: rest)).2 := by
  obtain ⟨pnd2, heq, hmem, hnd⟩ :=
    runCall_pre_walk action echo pre (CallEvent.msg (InMsg.json p) :: rest) pnd
      hecho hnodup hpre
  rw [heq]
  simp only [runCall, handleMessage, hp, if_pos (And.intro hne hmem), if_pos rfl]
  refine ⟨by simp, fun hmem2 => ?_⟩
  exact ((List.Nodup.mem_erase_iff hnd).mp hmem2).1 rfl

/-- Closed instance of `correlator_resolves_on_matching_echo`: the reference
scenario with token `repro_1000_0` and the matching `status: ok` reply. -/
theorem correlator_resolves_witness :
    mkEcho 1000 0 = str "repro_1000_0" ∧
    (runCall (str "send_group_msg") (mkEcho 1000 0) [mkEcho 1000 0]
      [CallEvent.msg (InMsg.json ⟨some (str "repro_1000_0"), [(str "status", str "ok")]⟩)]).1 =
      some (.resolved ⟨some (str "repro_1000_0"), [(str "status", str "ok")]⟩) ∧
    mkEcho 1000 0 ∉ (runCall (str "send_group_msg") (mkEcho 1000 0) [mkEcho 1000 0]
      [CallEvent.msg (InMsg.json ⟨some (str "repro_1000_0"), [(str "status", str "ok")]⟩)]).2 := by
  have h := correlator_resolves_on_matching_echo (str "send_group_msg") (mkEcho 1000 0)
    [mkEcho 1000 0] [] []
    ⟨some (str "repro_1000_0"), [(str "status", str "ok")]⟩
    (by decide) (by decide) (by decide) (by decide) (by simp)
  exact ⟨by decide, by simpa using h.1, by simpa using h.2⟩

/-- C4: if the timer event arrives with no matching message before it, the
call fails with the timeout error naming both the action and the token, the
token's pending entry is removed, and the default timeout is 25000 ms. -/
theorem correlator_timeout_rejects_and_cleans (action echo : Str) (pnd : List Str)
    (pre rest : List CallEvent)
    (hecho : echo ∈ pnd) (hnodup : pnd.Nodup)
    (hpre : ∀ e ∈ pre, e ≠ CallEvent.timer ∧
      ∀ q : Payload, e = .msg (.json q) → q.echo ≠ some echo) :
    (runCall action echo pnd (pre ++ CallEvent.timer :: rest)).1 =
      some (.timedOut (timeoutErrMsg action echo)) ∧
    timeoutErrMsg action echo = str "timeout action=" ++ action ++ str " echo=" ++ echo ∧
    echo ∉ (runCall action echo pnd (pre ++ CallEvent.timer :: rest)).2 ∧
    defaultCallTimeoutMs = 25000 := by
  obtain ⟨pnd2, heq, hmem, hnd⟩ :=
    runCall_pre_walk action echo pre (CallEvent.timer :: rest) pnd hecho hnodup hpre
  rw [heq]
  simp only [runCall]
  refine ⟨by simp, rfl, fun hmem2 => ?_, rfl⟩
  exact ((List.Nodup.mem_erase_iff hnd).mp hmem2).1 rfl

/-- Closed instance of `correlator_timeout_rejects_and_cleans`: a pending
token whose only event is the timer expiry. -/
theorem correlator_timeout_witness :
    (runCall (str "send_group_msg") (str "tok") [str "tok"] [CallEvent.timer]).1 =
      some (.timedOut (timeoutErrMsg (str "send_group_msg") (str "tok"))) ∧
    str "tok" ∉ (runCall (str "send_group_msg") (str "tok") [str "tok"] [CallEvent.timer]).2 := by
  have h := correlator_timeout_rejects_and_cleans (str "send_group_msg") (str "tok")
    [str "tok"] [] [] (by decide) (by decide) (by simp)
  exact ⟨by simpa using h.1, by simpa using h.2.2.1⟩

/- ### C7: repro script exit codes -/

/-- Environment of the C7 counterexample: all arguments present and files
found, the socket connects, every call succeeds, but `--group abc` cannot be
parsed. -/
def badGroupEnv : MainEnv :=
  { argv := [str "node", str "script", str "--ws", str "ws://h", str "--mp4", str "/a.mp4",
      str "--txt", str "/b.txt", str "--group", str "abc"],
    envWsUrl := none, envToken := none, fileOk := fun _ => true, connectOk := true,
    callFails := fun _ => false }

/-- C7 counterexample: an invalid `--group` value does not exit with code 2 —
the `invalid --group` error is thrown inside `main`, reaches `main().catch`,
and the script exits with code 1. -/
theorem invalid_group_exits_one :
    jsParseInt10 ((resolvedGroup badGroupEnv).getD []) = none ∧
    mainExit badGroupEnv = .code1 ∧ ExitCode.code1 ≠ ExitCode.code2 := by
  exact ⟨by decide, by decide, by decide⟩

/-- C7 (amended): the repro script exits with code 2 on missing arguments or
missing input files; an invalid `--group` value throws after the socket
opens and exits with code 1, as does any other runtime failure (socket error
or failed call); a completed run exits with code 0. -/
theorem repro_exit_codes :
    (∀ env : MainEnv,
      jsTruthyOpt (resolvedWs env) = false ∨ jsTruthyOpt (resolvedMp4 env) = false ∨
        jsTruthyOpt (resolvedTxt env) = false → mainExit env = .code2) ∧
    (∀ env : MainEnv,
      ¬ (jsTruthyOpt (resolvedWs env) = false ∨ jsTruthyOpt (resolvedMp4 env) = false ∨
        jsTruthyOpt (resolvedTxt env) = false) →
      env.fileOk ((resolvedMp4 env).getD []) = false ∨
        env.fileOk ((resolvedTxt env).getD []) = false →
      mainExit env = .code2) ∧
    (∀ env : MainEnv,
      ¬ (jsTruthyOpt (resolvedWs env) = false ∨ jsTruthyOpt (resolvedMp4 env) = false ∨
        jsTruthyOpt (resolvedTxt env) = false) →
      env.fileOk ((resolvedMp4 env).getD []) = true →
      env.fileOk ((resolvedTxt env).getD []) = true →
      env.connectOk = false → mainExit env = .code1) ∧
    (∀ env : MainEnv,
      ¬ (jsTruthyOpt (resolvedWs env) = false ∨ jsTruthyOpt (resolvedMp4 env) = false ∨
        jsTruthyOpt (resolvedTxt env) = false) →
      env.fileOk ((resolvedMp4 env).getD []) = true →
      env.fileOk ((resolvedTxt env).getD []) = true →
      env.connectOk = true →
      jsParseInt10 ((resolvedGroup env).getD []) = none → mainExit env = .code1) ∧
    (∀ (env : MainEnv) (g : Int),
      ¬ (jsTruthyOpt (resolvedWs env) = false ∨ jsTruthyOpt (resolvedMp4 env) = false ∨
        jsTruthyOpt (resolvedTxt env) = false) →
      env.fileOk ((resolvedMp4 env).getD []) = true →
      env.fileOk ((resolvedTxt env).getD []) = true →
      env.connectOk = true →
      jsParseInt10 ((resolvedGroup env).getD []) = some g →
      (∃ i, i < 6 ∧ env.callFails i = true) → mainExit env = .code1) ∧
    (∀ (env : MainEnv) (g : Int),
      ¬ (jsTruthyOpt (resolvedWs env) = false ∨ jsTruthyOpt (resolvedMp4 env) = false ∨
        jsTruthyOpt (resolvedTxt env) = false) →
      env.fileOk ((resolvedMp4 env).getD []) = true →
      env.fileOk ((resolvedTxt env).getD []) = true →
      env.connectOk = true →
      jsParseInt10 ((resolvedGroup env).getD []) = some g →
      (∀ i, i < 6 → env.callFails i = false) → mainExit env = .code0) := by
  refine ⟨?_, ?_, ?_, ?_, ?_, ?_⟩
  · intro env h
    simp [mainExit, if_pos h]
  · intro env h1 h2
    rcases h2 with h2 | h2
    · simp [mainExit, if_neg h1, h2, if_pos rfl]
    · by_cases hmp4 : env.fileOk ((resolvedMp4 env).getD []) = false
      · simp [mainExit, if_neg h1, hmp4, if_pos rfl]
      · simp [mainExit, if_neg h1, if_neg hmp4, h2, if_pos rfl]
  · intro env h1 h2 h3 h4
    simp [mainExit, if_neg h1, h2, Bool.true_eq_false, if_false, h3, h4, if_pos rfl]
  · intro env h1 h2 h3 h4 h5
    simp [mainExit, if_neg h1, h2, h3, Bool.true_eq_false, if_false, h4, h5]
  · intro env g h1 h2 h3 h4 h5 h6
    obtain ⟨i, hi, hf⟩ := h6
    simp [mainExit, if_neg h1, h2, h3, Bool.true_eq_false, if_false, h4, h5]
    interval_cases i <;> simp [hf]
  · intro env g h1 h2 h3 h4 h5 h6
    have c0 := h6 0 (by omega)
    have c1 := h6 1 (by omega)
    have c2 := h6 2 (by omega)
    have c3 := h6 3 (by omega)
    have c4 := h6 4 (by omega)
    have c5 := h6 5 (by omega)
    simp [mainExit, if_neg h1, h2, h3, Bool.true_eq_false, if_false, h4, h5,
      c0, c1, c2, c3, c4, c5, Bool.or_self, if_false]

/-- Environment of the C7 success instance. -/
def goodRunEnv : MainEnv :=
  { badGroupEnv with argv := [str "node", str "script", str "--ws", str "ws://h",
      str "--mp4", str "/a.mp4", str "--txt", str "/b.txt"] }

/-- Closed instance of `repro_exit_codes`: the default group with all calls
succeeding exits with code 0. -/
theorem repro_exit_codes_witness :
    jsParseInt10 ((resolvedGroup goodRunEnv).getD []) = some 883766069 ∧
    mainExit goodRunEnv = .code0 := by
  refine ⟨by decide, ?_⟩
  exact repro_exit_codes.2.2.2.2.2 goodRunEnv 883766069 (by decide) (by decide) (by decide)
    (by decide) (by decide) (fun i _ => rfl)

end Moltbot
